import Mathlib

/-!
# Verification of the OpenVR runtime loop (src/src/backend/openvr/mod.rs)

A shallow embedding of `openvr_run`: startup (fallible initialization steps),
and one iteration of the frame loop (event drain, device-refresh check, task
drain, input update, pointer interaction and ray drawing, overlay lifecycle
hooks, frame pacing).  Time instants and seconds are modelled as rationals;
external collaborator behaviour (task bodies, hook bodies, interaction
results) is supplied through an environment of abstract functions, and the
loop body emits a trace of the phases it runs.
-/

namespace OpenVr

/-- Runtime events, after the `match event.event_type` in the drain loop:
quit, the three device-topology events, and everything else (`_ => {}`). -/
inductive Event : Type
  | quit
  | trackedDeviceActivated
  | trackedDeviceDeactivated
  | trackedDeviceUpdated
  | other (code : Nat)
  deriving DecidableEq, Repr

/-- The three device-topology event types that reset the device-refresh
timer (`VREvent_TrackedDeviceActivated | ...Deactivated | ...Updated`). -/
def Event.isTopology : Event → Bool
  | .trackedDeviceActivated => true
  | .trackedDeviceDeactivated => true
  | .trackedDeviceUpdated => true
  | _ => false

/-- The event-drain loop (`while let Some(event) = system_mngr.poll_next_event()`):
processes the polled batch in order; `quit` returns from `openvr_run`
(modelled as `none`); a topology event sets `next_device_update = Instant::now()`;
any other event is ignored.  Returns the resulting `next_device_update`. -/
def drainEvents : List Event → ℚ → ℚ → Option ℚ
  | [], _, ndu => some ndu
  | e :: rest, now, ndu =>
    match e with
    | .quit => none
    | .trackedDeviceActivated => drainEvents rest now now
    | .trackedDeviceDeactivated => drainEvents rest now now
    | .trackedDeviceUpdated => drainEvents rest now now
    | .other _ => drainEvents rest now ndu

/-- The device-refresh check (`if next_device_update <= Instant::now()`):
when due, the device list is refreshed (flag `true`) and the timer is set to
`Instant::now() + Duration::from_secs(30)`; otherwise nothing happens. -/
def deviceCheck (now ndu : ℚ) : ℚ × Bool :=
  if ndu ≤ now then (now + 30, true) else (ndu, false)

/-- `frame_time = (1000.0 / refresh_rate).floor() * 0.001`, over rationals. -/
def frame_time (refresh_rate : ℚ) : ℚ := (⌊1000 / refresh_rate⌋ : ℚ) * (1 / 1000)

/-- Truncation toward zero, the rounding used by the Rust float `%`. -/
def qtrunc (x : ℚ) : ℤ := if 0 ≤ x then ⌊x⌋ else ⌈x⌉

/-- Rust float remainder `a % b`: `a - b * trunc(a / b)` (sign of the
dividend), over rationals. -/
def rustRem (a b : ℚ) : ℚ := a - b * (qtrunc (a / b) : ℚ)

/-- The argument of the frame-pacing sleep: on vsync-query success with `e`
seconds since last vsync, `frame_time - (seconds_since_vsync % frame_time)`;
on failure, `frame_time`. -/
def sleepDuration (ft : ℚ) (vsync : Option ℚ) : ℚ :=
  match vsync with
  | some e => ft - rustRem e ft
  | none => ft

/-- The ray length chosen per pointer: `if dist > 0.001 { dist } else { 20.0 }`
(`0.001` as the rational 1/1000). -/
def lineLen (dist : ℚ) : ℚ := if 1 / 1000 < dist then dist else 20

/-- A deferred task (`TaskType` from `backend::common`): `Global` carries a
closure over application state, `Overlay` additionally carries a selector;
closures are identified by an abstract id resolved by the environment. -/
inductive TaskType : Type
  | global (fid : Nat)
  | overlay (sel : Nat) (fid : Nat)
  deriving DecidableEq, Repr

/-- The mutable private state of an overlay: the `want_visible` flag read by the
render-pass filter, plus abstract remaining content. -/
structure OverlayState : Type where
  want_visible : Bool
  data : Nat
  deriving DecidableEq, Repr

/-- One entry of the overlay container: a stable selector and the state. -/
structure OverlayData : Type where
  sel : Nat
  state : OverlayState
  deriving DecidableEq, Repr

/-- External collaborator behaviour: task closures (resolved from their ids),
the per-pointer `interact` (which may mutate app state and overlays and
returns the hit distance), and the three overlay lifecycle hooks
(`after_input` and `render` may mutate app state and the private state of the overlay
itself; `after_render` receives the graphics state immutably, so it may only
mutate the overlay). -/
structure LoopEnv : Type where
  globalF : Nat → Nat → Nat
  overlayF : Nat → Nat → OverlayState → Nat × OverlayState
  interactF : Nat → Nat → List OverlayData → ℚ × Nat × List OverlayData
  afterInputF : Nat → Nat → OverlayState → Nat × OverlayState
  renderF : Nat → Nat → OverlayState → Nat × OverlayState
  afterRenderF : Nat → OverlayState → OverlayState

/-- Phases of one loop iteration, recorded as a trace.  `hideLine`
corresponds to the commented-out `lines.hide(p.data.line_id)` and is never
emitted. -/
inductive Phase : Type
  | updateDevices
  | runGlobalTask (fid : Nat)
  | runOverlayTask (sel : Nat) (fid : Nat)
  | preUpdate
  | inputUpdate
  | postUpdate
  | drawLine (pointer : Nat) (len : ℚ)
  | hideLine (pointer : Nat)
  | linesUpdate
  | afterInput (sel : Nat)
  | renderHook (sel : Nat)
  | afterRender (sel : Nat)
  | onNewFrame
  | sleep (secs : ℚ)
  deriving DecidableEq, Repr

/-- `overlays.mut_by_selector(&sel)` followed by `f(&mut state, &mut o.state)`:
applies the task closure to the app state and the first overlay matching the
selector; `none` when no overlay matches. -/
def applyOverlayTask (env : LoopEnv) (sel fid : Nat) (st : Nat) :
    List OverlayData → Option (Nat × List OverlayData)
  | [] => none
  | o :: rest =>
    if o.sel = sel then
      let p := env.overlayF fid st o.state
      some (p.1, { o with state := p.2 } :: rest)
    else
      match applyOverlayTask env sel fid st rest with
      | none => none
      | some (st2, rest2) => some (st2, o :: rest2)

/-- The task-drain loop (`while let Some(task) = due_tasks.pop_front()`):
executes the retrieved tasks in FIFO order; a `Global` task runs against app
state; an `Overlay` task runs only if its selector still resolves, and is
silently consumed otherwise. -/
def execTasks (env : LoopEnv) :
    List TaskType → Nat → List OverlayData → Nat × List OverlayData × List Phase
  | [], st, ovs => (st, ovs, [])
  | .global fid :: rest, st, ovs =>
    let r := execTasks env rest (env.globalF fid st) ovs
    (r.1, r.2.1, Phase.runGlobalTask fid :: r.2.2)
  | .overlay sel fid :: rest, st, ovs =>
    match applyOverlayTask env sel fid st ovs with
    | none => execTasks env rest st ovs
    | some (st2, ovs2) =>
      let r := execTasks env rest st2 ovs2
      (r.1, r.2.1, Phase.runOverlayTask sel fid :: r.2.2)

/-- The deferred-task queue: scheduled entries as (due-time, task) pairs in
submission order.  Its implementation lives in `backend::common`, outside
the shown sources. -/
structure TaskQueue : Type where
  entries : List (ℚ × TaskType)
  deriving DecidableEq, Repr

/-- Modelled from the spec: the implementation of `TaskManager::retrieve_due`
(`state.tasks.retrieve_due(&mut due_tasks)`) is not among the shown sources.
Per §4.2 of the spec, it atomically moves every entry whose due time has
elapsed into the caller-supplied buffer, in submission order, and leaves
not-yet-due entries untouched, preserving their relative order. -/
def retrieve_due (now : ℚ) (q : TaskQueue) : List TaskType × TaskQueue :=
  ((q.entries.filter (fun e => decide (e.1 ≤ now))).map Prod.snd,
   ⟨q.entries.filter (fun e => decide (now < e.1))⟩)

/-- The pointer pass (`input.pointers.iter_mut().for_each(...)`): each of the
two pointers interacts with the overlays (possibly mutating app state and
overlays) and draws its line with length `lineLen dist`.  The line is drawn
in both branches; it is never hidden. -/
def runPointers (env : LoopEnv) (st : Nat) (ovs : List OverlayData) :
    Nat × List OverlayData × List Phase :=
  let r0 := env.interactF 0 st ovs
  let r1 := env.interactF 1 r0.2.1 r0.2.2
  (r1.2.1, r1.2.2,
   [Phase.drawLine 0 (lineLen r0.1), Phase.drawLine 1 (lineLen r1.1)])

/-- The `after_input` pass: invoked on every overlay, in container order,
regardless of visibility. -/
def runAfterInput (env : LoopEnv) (st : Nat) :
    List OverlayData → Nat × List OverlayData × List Phase
  | [] => (st, [], [])
  | o :: rest =>
    let p := env.afterInputF o.sel st o.state
    let r := runAfterInput env p.1 rest
    (r.1, { o with state := p.2 } :: r.2.1, Phase.afterInput o.sel :: r.2.2)

/-- The `render` pass: `iter_mut().filter(|o| o.state.want_visible)`, so only
overlays whose flag is set are rendered; the rest pass through untouched. -/
def runRender (env : LoopEnv) (st : Nat) :
    List OverlayData → Nat × List OverlayData × List Phase
  | [] => (st, [], [])
  | o :: rest =>
    if o.state.want_visible then
      let p := env.renderF o.sel st o.state
      let r := runRender env p.1 rest
      (r.1, { o with state := p.2 } :: r.2.1, Phase.renderHook o.sel :: r.2.2)
    else
      let r := runRender env st rest
      (r.1, o :: r.2.1, r.2.2)

/-- The `after_render` pass: invoked on every overlay, in container order;
receives `&state.graphics` immutably, so app state is unchanged. -/
def runAfterRender (env : LoopEnv) :
    List OverlayData → List OverlayData × List Phase
  | [] => ([], [])
  | o :: rest =>
    let r := runAfterRender env rest
    ({ o with state := env.afterRenderF o.sel o.state } :: r.1,
     Phase.afterRender o.sel :: r.2)

/-- The three lifecycle-hook passes in source order: `after_input` over all
overlays, then `render` over the visible ones, then `after_render` over all. -/
def hookPhase (env : LoopEnv) (st : Nat) (ovs : List OverlayData) :
    Nat × List OverlayData × List Phase :=
  let a := runAfterInput env st ovs
  let b := runRender env a.1 a.2.1
  let c := runAfterRender env b.2.1
  (b.1, c.1, a.2.2 ++ b.2.2 ++ c.2)

/-- The loop-carried state of `openvr_run`: the device-refresh timer, the
application state (abstract), the overlay container, and the task queue. -/
structure LoopSt : Type where
  nextDeviceUpdate : ℚ
  appState : Nat
  overlays : List OverlayData
  queue : TaskQueue

/-- Per-iteration external inputs: the polled event batch, the current
instant, and the vsync query result (`some e` on success with `e` seconds
since last vsync, `none` on failure). -/
structure IterInput : Type where
  events : List Event
  now : ℚ
  vsync : Option ℚ

/-- The body of one iteration after the event drain succeeded with timer
value `ndu`: refresh check, task drain and execution, input update phases,
pointer interaction and line drawing, line flush, the three hook passes,
new-frame bookkeeping, and the frame-pacing sleep. -/
def iterBody (env : LoopEnv) (ft : ℚ) (inp : IterInput) (st : LoopSt)
    (ndu : ℚ) : LoopSt × List Phase :=
  let dc := deviceCheck inp.now ndu
  let trDev : List Phase := if dc.2 then [Phase.updateDevices] else []
  let rq := retrieve_due inp.now st.queue
  let tk := execTasks env rq.1 st.appState st.overlays
  let pt := runPointers env tk.1 tk.2.1
  let hk := hookPhase env pt.1 pt.2.1
  (⟨dc.1, hk.1, hk.2.1, rq.2⟩,
   trDev ++ tk.2.2
     ++ [Phase.preUpdate, Phase.inputUpdate, Phase.postUpdate]
     ++ pt.2.2 ++ [Phase.linesUpdate] ++ hk.2.2
     ++ [Phase.onNewFrame, Phase.sleep (sleepDuration ft inp.vsync)])

/-- One iteration of the frame loop: drain events first; a quit event
returns from `openvr_run` at once (`none`, empty trace — no later phase
runs); otherwise the iteration body runs. -/
def iterate (env : LoopEnv) (ft : ℚ) (inp : IterInput) (st : LoopSt) :
    Option LoopSt × List Phase :=
  match drainEvents inp.events inp.now st.nextDeviceUpdate with
  | none => (none, [])
  | some ndu =>
    let b := iterBody env ft inp st ndu
    (some b.1, b.2)

/-- Which of the fallible startup steps failed. -/
inductive InitError : Type
  | contextInit
  | actionManifest
  | inputState
  | refreshRate
  deriving DecidableEq, Repr

/-- Outcome of the startup sequence of `openvr_run`: a fatal error with its single log
line, or the frame loop begins with the computed frame interval. -/
inductive RunResult : Type
  | fatal (err : InitError) (logMsg : String)
  | loopStarted (ft : ℚ)
  deriving DecidableEq, Repr

/-- Outcomes of the four fallible startup steps, decided by the external VR
runtime: context init, `set_action_manifest` (`some e` is the error
description on failure), `InputState::new`, and the display-refresh-rate
property query. -/
structure StartupOutcomes : Type where
  contextOk : Bool
  manifestErr : Option String
  inputOk : Bool
  refreshRate : Option ℚ

/-- The startup sequence of `openvr_run`: each fallible step, in source
order, logs one error and returns on failure; on full success the frame
loop starts with `frame_time refresh_rate`. -/
def openvr_run (oc : StartupOutcomes) : RunResult :=
  if oc.contextOk then
    match oc.manifestErr with
    | some e => .fatal .actionManifest ("Failed to set action manifest: " ++ e)
    | none =>
      if oc.inputOk then
        match oc.refreshRate with
        | some r => .loopStarted (frame_time r)
        | none => .fatal .refreshRate "Failed to get display refresh rate"
      else .fatal .inputState "Failed to initialize input"
  else .fatal .contextInit "Failed to initialize OpenVR"

/-- A trivial environment: task closures and hooks leave state unchanged,
`interact` reports distance 0 (the no-hit sentinel). -/
def sampleEnv : LoopEnv where
  globalF := fun _ s => s
  overlayF := fun _ s o => (s, o)
  interactF := fun _ s ovs => (0, s, ovs)
  afterInputF := fun _ s o => (s, o)
  renderF := fun _ s o => (s, o)
  afterRenderF := fun _ o => o

/-- A loop state with no overlays and an empty task queue. -/
def sampleSt : LoopSt := ⟨0, 0, [], ⟨[]⟩⟩

section Lemmas

/-- For nonnegative dividend and positive divisor the Rust float remainder
is nonnegative. -/
lemma rustRem_nonneg (a b : ℚ) (ha : 0 ≤ a) (hb : 0 < b) : 0 ≤ rustRem a b := by
  have hq : 0 ≤ a / b := div_nonneg ha hb.le
  have hfr : rustRem a b = b * Int.fract (a / b) := by
    unfold rustRem qtrunc
    rw [if_pos hq, Int.fract]
    field_simp
  rw [hfr]
  exact mul_nonneg hb.le (Int.fract_nonneg _)

/-- For nonnegative dividend and positive divisor the Rust float remainder
is strictly below the divisor. -/
lemma rustRem_lt (a b : ℚ) (ha : 0 ≤ a) (hb : 0 < b) : rustRem a b < b := by
  have hq : 0 ≤ a / b := div_nonneg ha hb.le
  have hfr : rustRem a b = b * Int.fract (a / b) := by
    unfold rustRem qtrunc
    rw [if_pos hq, Int.fract]
    field_simp
  rw [hfr]
  calc b * Int.fract (a / b) < b * 1 :=
        (mul_lt_mul_left hb).mpr (Int.fract_lt_one _)
    _ = b := mul_one b

/-- Draining a batch with no quit event yields a timer value. -/
lemma drainEvents_isSome (evs : List Event) (now : ℚ) (h : Event.quit ∉ evs) :
    ∀ ndu : ℚ, ∃ r, drainEvents evs now ndu = some r := by
  induction evs with
  | nil => exact fun ndu => ⟨ndu, rfl⟩
  | cons e rest ih =>
    intro ndu
    have he : e ≠ Event.quit := fun hq => h (hq ▸ List.mem_cons_self e rest)
    have ht : Event.quit ∉ rest := fun hq => h (List.mem_cons_of_mem e hq)
    cases e with
    | quit => exact absurd rfl he
    | trackedDeviceActivated => exact ih ht now
    | trackedDeviceDeactivated => exact ih ht now
    | trackedDeviceUpdated => exact ih ht now
    | other n => exact ih ht ndu

/-- Draining a batch containing a quit event returns (i.e. yields `none`). -/
lemma drainEvents_eq_none (evs : List Event) (now : ℚ) (h : Event.quit ∈ evs) :
    ∀ ndu : ℚ, drainEvents evs now ndu = none := by
  induction evs with
  | nil => exact absurd h (List.not_mem_nil _)
  | cons e rest ih =>
    intro ndu
    cases e with
    | quit => rfl
    | trackedDeviceActivated =>
      exact ih (by simpa using h) now
    | trackedDeviceDeactivated =>
      exact ih (by simpa using h) now
    | trackedDeviceUpdated =>
      exact ih (by simpa using h) now
    | other n =>
      exact ih (by simpa using h) ndu

/-- The last element of a trace ending in a fixed pair. -/
lemma getLast_append_pair {α : Type} (l : List α) (x y : α) :
    (l ++ [x, y]).getLast? = some y := by
  have h : l ++ [x, y] = (l ++ [x]) ++ [y] := by simp
  rw [h, List.getLast?_concat]

end Lemmas

/-- C10: whenever the frame interval is strictly positive and the vsync
query reports E ≥ 0 seconds since last vsync, the computed sleep duration
frame_time - (E mod frame_time) is strictly positive and at most
frame_time, so the Duration handed to the sleep is non-negative and finite
and its construction never panics. -/
theorem sleep_duration_safe (ft e : ℚ) (hft : 0 < ft) (he : 0 ≤ e) :
    0 < sleepDuration ft (some e) ∧ sleepDuration ft (some e) ≤ ft := by
  simp only [sleepDuration]
  constructor
  · have := rustRem_lt e ft he hft
    linarith
  · have := rustRem_nonneg e ft he hft
    linarith

theorem sleep_duration_safe_witness :
    0 < sleepDuration 1 (some (1 / 2)) ∧ sleepDuration 1 (some (1 / 2)) ≤ 1 :=
  sleep_duration_safe 1 (1 / 2) (by norm_num) (by norm_num)

/-- C1: the frame interval equals floor(1000/R)*0.001 seconds; on every
iteration that does not quit, the loop ends by sleeping exactly
frame_time - (E mod frame_time) seconds when the vsync query succeeded with
E seconds elapsed, and exactly frame_time seconds when it failed. -/
theorem frame_pacing (R e ft : ℚ) (env : LoopEnv) (inp : IterInput)
    (st : LoopSt) (h : Event.quit ∉ inp.events) :
    frame_time R = (⌊(1000 : ℚ) / R⌋ : ℚ) * (1 / 1000)
    ∧ sleepDuration ft (some e) = ft - rustRem e ft
    ∧ sleepDuration ft none = ft
    ∧ (iterate env ft inp st).2.getLast?
        = some (Phase.sleep (sleepDuration ft inp.vsync)) := by
  refine ⟨rfl, rfl, rfl, ?_⟩
  obtain ⟨r, hr⟩ := drainEvents_isSome inp.events inp.now h st.nextDeviceUpdate
  unfold iterate
  rw [hr]
  unfold iterBody
  exact getLast_append_pair _ _ _

theorem frame_pacing_witness :
    frame_time 90 = (⌊(1000 : ℚ) / 90⌋ : ℚ) * (1 / 1000)
    ∧ sleepDuration 1 (some (1 / 250)) = 1 - rustRem (1 / 250) 1
    ∧ sleepDuration 1 none = 1
    ∧ (iterate sampleEnv 1 ⟨[], 0, none⟩ sampleSt).2.getLast?
        = some (Phase.sleep (sleepDuration 1 (IterInput.mk [] 0 none).vsync)) :=
  frame_pacing 90 (1 / 250) 1 sampleEnv ⟨[], 0, none⟩ sampleSt
    (List.not_mem_nil _)

/-- C2: if a quit event is present in the polled batch, the iteration
returns as soon as it is dequeued: the loop result is a return (`none`) and
the trace is empty — no device refresh, task drain, input update,
interaction, or hook phase runs. -/
theorem quit_immediate_return (env : LoopEnv) (ft : ℚ) (inp : IterInput)
    (st : LoopSt) (h : Event.quit ∈ inp.events) :
    iterate env ft inp st = (none, []) := by
  unfold iterate
  rw [drainEvents_eq_none inp.events inp.now h st.nextDeviceUpdate]

theorem quit_immediate_return_witness :
    iterate sampleEnv 1 ⟨[Event.other 7, Event.quit], 0, none⟩ sampleSt
      = (none, []) :=
  quit_immediate_return sampleEnv 1 ⟨[Event.other 7, Event.quit], 0, none⟩
    sampleSt (by simp)

/-- C9: a polled event that is neither quit nor one of the three
device-topology types is ignored: the drain skips it leaving the timer and
all other loop state unchanged, and a batch of only such events leaves the
timer exactly as it was. -/
theorem ignored_events_noop :
    (∀ (n : Nat) (rest : List Event) (now ndu : ℚ),
        drainEvents (Event.other n :: rest) now ndu = drainEvents rest now ndu)
    ∧ (∀ (evs : List Event) (now ndu : ℚ),
        (∀ e ∈ evs, ∃ n, e = Event.other n) →
        drainEvents evs now ndu = some ndu) := by
  refine ⟨fun n rest now ndu => rfl, fun evs now ndu h => ?_⟩
  induction evs with
  | nil => rfl
  | cons e rest ih =>
    obtain ⟨n, hn⟩ := h e (List.mem_cons_self e rest)
    subst hn
    exact ih fun x hx => h x (List.mem_cons_of_mem _ hx)

theorem ignored_events_noop_witness :
    drainEvents [Event.other 5, Event.other 0] 2 3 = some 3 :=
  ignored_events_noop.2 [Event.other 5, Event.other 0] 2 3
    (by intro e he; simp at he; rcases he with h | h <;> exact ⟨_, h⟩)

/-- Once the timer holds the current instant, draining further quit-free
events leaves it at the current instant. -/
lemma drainEvents_now (evs : List Event) (now : ℚ) (h : Event.quit ∉ evs) :
    drainEvents evs now now = some now := by
  induction evs with
  | nil => rfl
  | cons e rest ih =>
    have ht : Event.quit ∉ rest := fun hq => h (List.mem_cons_of_mem e hq)
    cases e with
    | quit => exact absurd (List.mem_cons_self _ _) h
    | trackedDeviceActivated => exact ih ht
    | trackedDeviceDeactivated => exact ih ht
    | trackedDeviceUpdated => exact ih ht
    | other n => exact ih ht

/-- C5: a device-topology event observed during the event drain sets the
next device-refresh due time to the current instant, whatever later refresh
was already scheduled; and whenever the due time has been reached at the
refresh-check phase, the device list is refreshed and the next due time is
set to exactly 30 seconds later. -/
theorem device_refresh_scheduling :
    (∀ (evs : List Event) (now ndu : ℚ), Event.quit ∉ evs →
        (∃ e ∈ evs, e.isTopology = true) →
        drainEvents evs now ndu = some now)
    ∧ (∀ now ndu : ℚ, ndu ≤ now → deviceCheck now ndu = (now + 30, true)) := by
  constructor
  · intro evs now
    induction evs with
    | nil => intro ndu hq htop; simp at htop
    | cons e rest ih =>
      intro ndu hq htop
      have ht : Event.quit ∉ rest := fun hm => hq (List.mem_cons_of_mem e hm)
      cases e with
      | quit => exact absurd (List.mem_cons_self _ _) hq
      | trackedDeviceActivated => exact drainEvents_now rest now ht
      | trackedDeviceDeactivated => exact drainEvents_now rest now ht
      | trackedDeviceUpdated => exact drainEvents_now rest now ht
      | other n =>
        obtain ⟨x, hx, hxt⟩ := htop
        rcases List.mem_cons.mp hx with h1 | h1
        · rw [h1] at hxt; exact absurd hxt (by simp [Event.isTopology])
        · exact ih ndu ht ⟨x, h1, hxt⟩
  · intro now ndu h
    simp [deviceCheck, h]

theorem device_refresh_scheduling_witness :
    drainEvents [Event.trackedDeviceActivated] 2 100 = some 2
    ∧ deviceCheck 5 5 = (5 + 30, true) :=
  ⟨device_refresh_scheduling.1 [Event.trackedDeviceActivated] 2 100
      (by simp) ⟨Event.trackedDeviceActivated, by simp, rfl⟩,
    device_refresh_scheduling.2 5 5 le_rfl⟩

/-- Looking up a selector that matches no overlay fails. -/
lemma applyOverlayTask_none (env : LoopEnv) (sel fid : Nat) (st : Nat)
    (ovs : List OverlayData) (h : ∀ o ∈ ovs, o.sel ≠ sel) :
    applyOverlayTask env sel fid st ovs = none := by
  induction ovs with
  | nil => rfl
  | cons o rest ih =>
    have ho : o.sel ≠ sel := h o (List.mem_cons_self o rest)
    have hr := ih fun x hx => h x (List.mem_cons_of_mem o hx)
    simp [applyOverlayTask, ho, hr]

/-- C6: executing an overlay-scoped task whose selector no longer names an
existing overlay is a no-op: the task body is not invoked (no trace entry),
application state and overlays are unchanged, and execution continues with
the remaining tasks — the stale task is consumed, not retried. -/
theorem stale_overlay_task_noop (env : LoopEnv) (sel fid : Nat)
    (rest : List TaskType) (st : Nat) (ovs : List OverlayData)
    (h : ∀ o ∈ ovs, o.sel ≠ sel) :
    execTasks env (TaskType.overlay sel fid :: rest) st ovs
      = execTasks env rest st ovs := by
  have hn := applyOverlayTask_none env sel fid st ovs h
  simp [execTasks, hn]

theorem stale_overlay_task_noop_witness :
    execTasks sampleEnv [TaskType.overlay 3 0] 7 [⟨1, ⟨true, 0⟩⟩]
      = execTasks sampleEnv [] 7 [⟨1, ⟨true, 0⟩⟩] :=
  stale_overlay_task_noop sampleEnv 3 0 [] 7 [⟨1, ⟨true, 0⟩⟩]
    (by intro o ho; simp at ho; simp [ho])

/-- C8: each fallible startup step — context init, action-manifest binding,
input-state construction, refresh-rate query — on failure logs one error
naming the failed subsystem and returns immediately; and under any such
failure the frame loop never begins. -/
theorem fatal_startup_errors (oc : StartupOutcomes) :
    (oc.contextOk = false →
        openvr_run oc = RunResult.fatal InitError.contextInit
          "Failed to initialize OpenVR")
    ∧ (∀ e, oc.contextOk = true → oc.manifestErr = some e →
        openvr_run oc = RunResult.fatal InitError.actionManifest
          ("Failed to set action manifest: " ++ e))
    ∧ (oc.contextOk = true → oc.manifestErr = none → oc.inputOk = false →
        openvr_run oc = RunResult.fatal InitError.inputState
          "Failed to initialize input")
    ∧ (oc.contextOk = true → oc.manifestErr = none → oc.inputOk = true →
        oc.refreshRate = none →
        openvr_run oc = RunResult.fatal InitError.refreshRate
          "Failed to get display refresh rate")
    ∧ ((oc.contextOk = false ∨ oc.manifestErr ≠ none ∨ oc.inputOk = false
          ∨ oc.refreshRate = none) →
        ∀ ft, openvr_run oc ≠ RunResult.loopStarted ft) := by
  refine ⟨?_, ?_, ?_, ?_, ?_⟩
  · intro h; simp [openvr_run, h]
  · intro e hc hm; simp [openvr_run, hc, hm]
  · intro hc hm hi; simp [openvr_run, hc, hm, hi]
  · intro hc hm hi hr; simp [openvr_run, hc, hm, hi, hr]
  · intro hfail ft
    unfold openvr_run
    rcases hc : oc.contextOk with _ | _
    · simp
    · rcases hm : oc.manifestErr with _ | e
      · rcases hi : oc.inputOk with _ | _
        · simp
        · rcases hr : oc.refreshRate with _ | r
          · simp
          · rw [hc, hm, hi, hr] at hfail
            simp at hfail
      · simp

theorem fatal_startup_errors_witness :
    openvr_run ⟨false, none, true, some 90⟩
      = RunResult.fatal InitError.contextInit "Failed to initialize OpenVR" :=
  (fatal_startup_errors ⟨false, none, true, some 90⟩).1 rfl

/-- C3: `retrieve_due` at instant T moves into the buffer of the caller exactly
the scheduled entries with due time ≤ T, in submission order; every
later-due entry stays queued (none is delivered early), the queue keeps its
relative order, nothing is lost or duplicated, and each remaining entry is
delivered when `retrieve_due` runs at its own due time. -/
theorem retrieve_due_correct (q : TaskQueue) (T : ℚ) :
    (retrieve_due T q).1
      = (q.entries.filter (fun e => decide (e.1 ≤ T))).map Prod.snd
    ∧ (∀ e ∈ (retrieve_due T q).2.entries, T < e.1)
    ∧ (retrieve_due T q).2.entries.Sublist q.entries
    ∧ (q.entries.filter (fun e => decide (e.1 ≤ T))
        ++ (retrieve_due T q).2.entries).Perm q.entries
    ∧ (∀ e ∈ (retrieve_due T q).2.entries,
        e.2 ∈ (retrieve_due e.1 (retrieve_due T q).2).1) := by
  refine ⟨rfl, ?_, ?_, ?_, ?_⟩
  · intro e he
    rw [retrieve_due] at he
    simpa using (List.mem_filter.mp he).2
  · exact List.filter_sublist _
  · have hperm := List.filter_append_perm
      (fun e : ℚ × TaskType => decide (e.1 ≤ T)) q.entries
    have hcongr : q.entries.filter (fun e => !decide (e.1 ≤ T))
        = q.entries.filter (fun e => decide (T < e.1)) := by
      apply List.filter_congr
      intro x _
      by_cases hx : x.1 ≤ T
      · simp [hx, not_lt.mpr hx]
      · simp [hx, lt_of_not_le hx]
    rw [hcongr] at hperm
    exact hperm
  · intro e he
    rw [retrieve_due] at he ⊢
    exact List.mem_map.mpr
      ⟨e, List.mem_filter.mpr ⟨he, by simp⟩, rfl⟩

theorem retrieve_due_correct_witness :
    (retrieve_due 3 ⟨[(0, TaskType.global 1), (5, TaskType.global 2)]⟩).1
      = ((TaskQueue.mk [(0, TaskType.global 1), (5, TaskType.global 2)]).entries.filter
          (fun e => decide (e.1 ≤ 3))).map Prod.snd
    ∧ (∀ e ∈ (retrieve_due 3
          ⟨[(0, TaskType.global 1), (5, TaskType.global 2)]⟩).2.entries, 3 < e.1)
    ∧ (retrieve_due 3
          ⟨[(0, TaskType.global 1), (5, TaskType.global 2)]⟩).2.entries.Sublist
        (TaskQueue.mk [(0, TaskType.global 1), (5, TaskType.global 2)]).entries
    ∧ ((TaskQueue.mk [(0, TaskType.global 1), (5, TaskType.global 2)]).entries.filter
          (fun e => decide (e.1 ≤ 3))
        ++ (retrieve_due 3
            ⟨[(0, TaskType.global 1), (5, TaskType.global 2)]⟩).2.entries).Perm
        (TaskQueue.mk [(0, TaskType.global 1), (5, TaskType.global 2)]).entries
    ∧ (∀ e ∈ (retrieve_due 3
          ⟨[(0, TaskType.global 1), (5, TaskType.global 2)]⟩).2.entries,
        e.2 ∈ (retrieve_due e.1 (retrieve_due 3
          ⟨[(0, TaskType.global 1), (5, TaskType.global 2)]⟩).2).1) :=
  retrieve_due_correct ⟨[(0, TaskType.global 1), (5, TaskType.global 2)]⟩ 3

/-- The `after_input` pass emits one hook call per overlay, in order. -/
lemma runAfterInput_trace (env : LoopEnv) (ovs : List OverlayData) :
    ∀ st : Nat, (runAfterInput env st ovs).2.2
      = ovs.map (fun o => Phase.afterInput o.sel) := by
  induction ovs with
  | nil => intro st; rfl
  | cons o rest ih =>
    intro st
    simp [runAfterInput, ih]

/-- The `after_input` pass preserves the overlay selectors pointwise. -/
lemma runAfterInput_sels (env : LoopEnv) (ovs : List OverlayData) :
    ∀ st : Nat, (runAfterInput env st ovs).2.1.map (fun o => o.sel)
      = ovs.map (fun o => o.sel) := by
  induction ovs with
  | nil => intro st; rfl
  | cons o rest ih =>
    intro st
    simp [runAfterInput, ih]

/-- The `render` pass emits one hook call per visible overlay, in order. -/
lemma runRender_trace (env : LoopEnv) (ovs : List OverlayData) :
    ∀ st : Nat, (runRender env st ovs).2.2
      = (ovs.filter (fun o => o.state.want_visible)).map
          (fun o => Phase.renderHook o.sel) := by
  induction ovs with
  | nil => intro st; rfl
  | cons o rest ih =>
    intro st
    by_cases hv : o.state.want_visible
    · simp [runRender, hv, ih]
    · simp [runRender, hv, ih]

/-- The `render` pass preserves the overlay selectors pointwise. -/
lemma runRender_sels (env : LoopEnv) (ovs : List OverlayData) :
    ∀ st : Nat, (runRender env st ovs).2.1.map (fun o => o.sel)
      = ovs.map (fun o => o.sel) := by
  induction ovs with
  | nil => intro st; rfl
  | cons o rest ih =>
    intro st
    by_cases hv : o.state.want_visible
    · simp [runRender, hv, ih]
    · simp [runRender, hv, ih]

/-- The `after_render` pass emits one hook call per overlay, in order. -/
lemma runAfterRender_trace (env : LoopEnv) (ovs : List OverlayData) :
    (runAfterRender env ovs).2 = ovs.map (fun o => Phase.afterRender o.sel) := by
  induction ovs with
  | nil => rfl
  | cons o rest ih => simp [runAfterRender, ih]

/-- C7: per frame, `after_input` runs on every overlay regardless of its
`want_visible` flag, then `render` runs exactly on the overlays whose flag
is set, then `after_render` runs on every overlay; each pass completes over
all overlays (the selector lists are preserved pass to pass) before the
next begins. -/
theorem hook_dispatch_order (env : LoopEnv) (st : Nat)
    (ovs : List OverlayData) :
    (hookPhase env st ovs).2.2
      = ovs.map (fun o => Phase.afterInput o.sel)
        ++ ((runAfterInput env st ovs).2.1.filter
              (fun o => o.state.want_visible)).map
            (fun o => Phase.renderHook o.sel)
        ++ ((runRender env (runAfterInput env st ovs).1
              (runAfterInput env st ovs).2.1).2.1).map
            (fun o => Phase.afterRender o.sel)
    ∧ (runAfterInput env st ovs).2.1.map (fun o => o.sel)
        = ovs.map (fun o => o.sel)
    ∧ (∀ (st2 : Nat) (ovs2 : List OverlayData),
        (runRender env st2 ovs2).2.1.map (fun o => o.sel)
          = ovs2.map (fun o => o.sel)) := by
  refine ⟨?_, runAfterInput_sels env ovs st,
    fun st2 ovs2 => runRender_sels env ovs2 st2⟩
  show (runAfterInput env st ovs).2.2
      ++ (runRender env (runAfterInput env st ovs).1
            (runAfterInput env st ovs).2.1).2.2
      ++ (runAfterRender env (runRender env (runAfterInput env st ovs).1
            (runAfterInput env st ovs).2.1).2.1).2 = _
  rw [runAfterInput_trace, runRender_trace, runAfterRender_trace]

/-- The task-drain loop never hides a pointer line. -/
lemma hideLine_notin_execTasks (env : LoopEnv) (ts : List TaskType) :
    ∀ (st : Nat) (ovs : List OverlayData) (i : Nat),
      Phase.hideLine i ∉ (execTasks env ts st ovs).2.2 := by
  induction ts with
  | nil => intro st ovs i; simp [execTasks]
  | cons t rest ih =>
    intro st ovs i
    cases t with
    | global fid => simpa [execTasks] using ih (env.globalF fid st) ovs i
    | overlay sel fid =>
      rcases h : applyOverlayTask env sel fid st ovs with _ | ⟨st2, ovs2⟩
      · simpa [execTasks, h] using ih st ovs i
      · simpa [execTasks, h] using ih st2 ovs2 i

/-- The iteration body never hides a pointer line. -/
lemma hideLine_notin_iterBody (env : LoopEnv) (ft : ℚ) (inp : IterInput)
    (st : LoopSt) (ndu : ℚ) (i : Nat) :
    Phase.hideLine i ∉ (iterBody env ft inp st ndu).2 := by
  have htasks := hideLine_notin_execTasks env
    (retrieve_due inp.now st.queue).1 st.appState st.overlays i
  by_cases hdc : (deviceCheck inp.now ndu).2 <;>
    simp [iterBody, hdc, hookPhase, runPointers, htasks,
      runAfterInput_trace, runRender_trace, runAfterRender_trace]

/-- A loop iteration never hides a pointer line. -/
lemma hideLine_notin_iterate (env : LoopEnv) (ft : ℚ) (inp : IterInput)
    (st : LoopSt) (i : Nat) :
    Phase.hideLine i ∉ (iterate env ft inp st).2 := by
  unfold iterate
  rcases hd : drainEvents inp.events inp.now st.nextDeviceUpdate with _ | ndu
  · simp
  · simpa using hideLine_notin_iterBody env ft inp st ndu i

/-- C4: per pointer per frame, an interaction distance strictly greater
than 0.001 draws the line from the pointer pose at that distance; a
distance ≤ 0.001 (including the no-hit sentinel) draws it at the fixed
default length 20.0; the line is drawn in both cases — the trace of a frame
never contains a hide. -/
theorem ray_draw_policy :
    (∀ d : ℚ, 1 / 1000 < d → lineLen d = d)
    ∧ (∀ d : ℚ, d ≤ 1 / 1000 → lineLen d = 20)
    ∧ (∀ (env : LoopEnv) (st : Nat) (ovs : List OverlayData),
        (runPointers env st ovs).2.2 =
          [Phase.drawLine 0 (lineLen (env.interactF 0 st ovs).1),
           Phase.drawLine 1
             (lineLen (env.interactF 1 (env.interactF 0 st ovs).2.1
                (env.interactF 0 st ovs).2.2).1)])
    ∧ (∀ (env : LoopEnv) (ft : ℚ) (inp : IterInput) (st : LoopSt) (i : Nat),
        Phase.hideLine i ∉ (iterate env ft inp st).2) := by
  refine ⟨?_, ?_, ?_, hideLine_notin_iterate⟩
  · intro d h; unfold lineLen; rw [if_pos h]
  · intro d h; unfold lineLen; rw [if_neg (not_lt.mpr h)]
  · intro env st ovs; rfl

theorem ray_draw_policy_witness :
    lineLen 2 = 2 ∧ lineLen (1 / 2000) = 20 :=
  ⟨ray_draw_policy.1 2 (by norm_num),
   ray_draw_policy.2.1 (1 / 2000) (by norm_num)⟩

end OpenVr
